import Mathlib

/- Verification of the boolean log-query engine in
`python_utils/log_query/log_querier.py`: tokenizer, recursive evaluator with
AND/OR/NOT precedence, and the `query` facade with limit/ordering shaping.

Modelling conventions:
* Python strings are Lean `String`s; `in` (substring containment), `.lower()`,
  `.strip()` and `.replace(old, '')` are modelled over `List Char` by
  `pyContains`, `pyLower`, `pyStrip` and `removeOccurrences`.  Lean's
  `Char.isWhitespace`/`Char.toLower` model the ASCII behaviour of Python's
  `str.strip`/`str.lower`, which is all the corpus and the claims exercise.
* The recursive evaluator (`eval_next`/`eval_and`/`eval_or`, inner functions of
  `_evaluate_tokens`) is embedded with an explicit fuel argument so that the
  definitions stay executable; fuel only bounds the call-stack depth.  The
  visited position never decreases and each consumed token contributes at most
  four stack frames, so the depth of any evaluation is at most
  `4 * tokens.length + 4` (see the bound discussion at `evalFuel`); the top
  level supplies `4 * tokens.length + 8`, so the `fuel exhausted` branch is
  unreachable from `evaluate_tokens`.
* Exceptions (`raise Exception(...)`) are modelled with `Except String`.
* The two `while` loops inside `eval_and`/`eval_or` are embedded as the tail
  recursive `eval_and_loop`/`eval_or_loop` carrying the accumulated result.
-/

/-- `isPrefixCL n cs` decides whether the char list `n` is a prefix of `cs`. -/
def isPrefixCL : List Char → List Char → Bool
  | [], _ => true
  | _ :: _, [] => false
  | a :: as, b :: bs => a = b && isPrefixCL as bs

/-- `isSubstrCL n hay` decides whether `n` occurs contiguously in `hay`
(Python's `n in hay` on strings; the empty string occurs in everything). -/
def isSubstrCL (n : List Char) (hay : List Char) : Bool :=
  if isPrefixCL n hay then true
  else
    match hay with
    | [] => false
    | _ :: rest => isSubstrCL n rest

/-- Python's substring test `needle in hay`. -/
def pyContains (needle hay : String) : Bool := isSubstrCL needle.data hay.data

/-- Python's `str.lower()` (ASCII model). -/
def pyLower (s : String) : String := String.mk (s.data.map Char.toLower)

/-- Python's `str.strip()`: drop leading and trailing whitespace. -/
def pyStrip (cs : List Char) : List Char :=
  ((cs.dropWhile Char.isWhitespace).reverse.dropWhile Char.isWhitespace).reverse

/-- Helper for `removeOccurrences`; the fuel is the length of the scanned list,
which suffices because every step either consumes `pat` (nonempty in the
recursive case) or one character. -/
def removeOccAux (pat : List Char) : Nat → List Char → List Char
  | 0, cs => cs
  | fuel + 1, cs =>
    if pat ≠ [] ∧ isPrefixCL pat cs then
      removeOccAux pat fuel (cs.drop pat.length)
    else
      match cs with
      | [] => []
      | c :: rest => c :: removeOccAux pat fuel rest

/-- Python's `cs.replace(pat, '')`: delete every (leftmost, non-overlapping)
occurrence of `pat`.  For `pat = ''` Python's `replace('', '')` is the
identity, matched by the `pat ≠ []` guard. -/
def removeOccurrences (pat : List Char) (cs : List Char) : List Char :=
  removeOccAux pat cs.length cs

/-- The operation dictionary: `OperationDict` of `log_querier.py` (the five
operator literals, in the dictionary's insertion order AND, OR, NOT,
LEFT_PARENTHESIS, RIGHT_PARENTHESIS). -/
structure OperationDict where
  AND : String
  OR : String
  NOT : String
  LEFT_PARENTHESIS : String
  RIGHT_PARENTHESIS : String
deriving DecidableEq

/-- The module-level default `OPERATION_DICT`, holding the regex-escaped
literals exactly as the Python source writes them. -/
def OPERATION_DICT : OperationDict :=
  { AND := "\\&\\&"
    OR := "\\|\\|"
    NOT := "\\!\\!"
    LEFT_PARENTHESIS := "\\(\\("
    RIGHT_PARENTHESIS := "\\)\\)" }

/-- The module-level default `QUOTE_STRING`. -/
def QUOTE_STRING : String := "\"\""

/-- Python's `value.replace('\\', '')`: delete all backslashes. -/
def removeBackslashes (s : String) : String :=
  String.mk (s.data.filter (fun c => !(c = '\\')))

/-- `{key: value.replace('\\', '') for key, value in raw_operation_dict.items()}`
from `LogQuerier.__init__`. -/
def unescapeOperationDict (d : OperationDict) : OperationDict :=
  { AND := removeBackslashes d.AND
    OR := removeBackslashes d.OR
    NOT := removeBackslashes d.NOT
    LEFT_PARENTHESIS := removeBackslashes d.LEFT_PARENTHESIS
    RIGHT_PARENTHESIS := removeBackslashes d.RIGHT_PARENTHESIS }

/-- `INVALID_EVAL_OPERATION_SET`, computed once at module level from the
default `OPERATION_DICT` (AND, OR, RIGHT_PARENTHESIS with escapes removed);
a Python `set` used only for membership, modelled as a list. -/
def INVALID_EVAL_OPERATION_SET : List String :=
  [removeBackslashes OPERATION_DICT.AND,
   removeBackslashes OPERATION_DICT.OR,
   removeBackslashes OPERATION_DICT.RIGHT_PARENTHESIS]

/-- The five literal values of an operation dictionary, in insertion order
(the order of the regex alternation `'|'.join(raw_operation_dict.values())`). -/
def opValues (d : OperationDict) : List String :=
  [d.AND, d.OR, d.NOT, d.LEFT_PARENTHESIS, d.RIGHT_PARENTHESIS]

/-- The `LogQuerier` instance state after `__init__`: the stored corpus, the
unescaped operation dictionary `self.operationo_dict` (sic), and
`self.quote_string`.  `self.pattern` is the regex alternation over the raw
(escaped) literals; since an escaped literal matches exactly its unescaped
form, the tokenizer below works directly with the unescaped dictionary. -/
structure LogQuerier where
  logs : List String
  operationo_dict : OperationDict
  quote_string : String

/-- `LogQuerier.__init__(logs, raw_operation_dict, quote_string)`. -/
def mkLogQuerier (logs : List String) (raw_operation_dict : OperationDict)
    (quote_string : String) : LogQuerier :=
  { logs := logs
    operationo_dict := unescapeOperationDict raw_operation_dict
    quote_string := quote_string }

/-- A `LogQuerier` built with the default `OPERATION_DICT` and `QUOTE_STRING`
(the constructor's default arguments). -/
def defaultQuerier (logs : List String) : LogQuerier :=
  mkLogQuerier logs OPERATION_DICT QUOTE_STRING

/-- The leftmost-first operator match at the head of `cs`: the first literal
(in alternation order) that is a nonempty prefix of `cs`.  This is what
Python's `re.findall(self.pattern, query)` matches at each scan position.
(An empty literal would make the Python code raise `ValueError` in
`str.split`; such configurations are outside the modelled domain and are
skipped by the `isEmpty` guard.) -/
def findOp (d : OperationDict) (cs : List Char) : Option String :=
  (opValues d).find? (fun op => !op.data.isEmpty && isPrefixCL op.data cs)

theorem findOp_some_facts {d : OperationDict} {cs : List Char} {op : String}
    (h : findOp d cs = some op) :
    op ∈ opValues d ∧ op.data ≠ [] ∧ isPrefixCL op.data cs = true := by
  have hmem := List.mem_of_find?_eq_some h
  have hpred := List.find?_some h
  rw [Bool.and_eq_true] at hpred
  refine ⟨hmem, fun hnil => ?_, hpred.2⟩
  rw [hnil] at hpred
  simp at hpred

theorem isPrefixCL_length_le : ∀ {n cs : List Char}, isPrefixCL n cs = true →
    n.length ≤ cs.length
  | [], _, _ => by simp
  | _ :: _, [], h => by simp [isPrefixCL] at h
  | a :: as, b :: bs, h => by
    simp only [isPrefixCL, Bool.and_eq_true] at h
    simpa using Nat.succ_le_succ (isPrefixCL_length_le h.2)

theorem findOp_some_len {d : OperationDict} {cs : List Char} {op : String}
    (h : findOp d cs = some op) : (cs.drop op.data.length).length < cs.length := by
  obtain ⟨-, hne, hpre⟩ := findOp_some_facts h
  have hlen : op.data.length ≤ cs.length := isPrefixCL_length_le hpre
  have hpos : 0 < op.data.length := List.length_pos.mpr hne
  simp only [List.length_drop]
  omega

/-- The scan underlying `_tokenize`.  The Python code runs
`re.findall(self.pattern, query)` and then, for each found operator in order,
splits off the text before its first occurrence, emits it when nonempty,
emits the operator, and continues with the remainder (`split`/`join` on one
operator realises "cut at the first occurrence").  Since `re.findall` matches
the leftmost occurrence of any alternative (alternatives tried in dictionary
order) and resumes after the matched text, the combined effect is this single
left-to-right scan: at each position, emit the pending operand and the
matched operator when an operator literal starts here, otherwise accumulate
the character.  `acc` is the pending operand text, `fuel` starts at the
length of the scanned text (each step consumes at least one character). -/
def scanAux (d : OperationDict) : Nat → List Char → List Char → List String
  | 0, cs, acc => if (acc ++ cs).isEmpty then [] else [String.mk (acc ++ cs)]
  | fuel + 1, cs, acc =>
    match findOp d cs with
    | some op =>
      (if acc.isEmpty then [] else [String.mk acc]) ++
        op :: scanAux d fuel (cs.drop op.data.length) []
    | none =>
      match cs with
      | [] => if acc.isEmpty then [] else [String.mk acc]
      | c :: rest => scanAux d fuel rest (acc ++ [c])

/-- The inner `parse_quoted_token` of `_tokenize`:
`token.strip().replace(self.quote_string, '')`. -/
def parse_quoted_token (quote_string : String) (token : String) : String :=
  String.mk (removeOccurrences quote_string.data (pyStrip token.data))

/-- `LogQuerier._tokenize`: scan the query into raw operand/operator tokens,
normalize each token with `parse_quoted_token`, and drop the tokens that
normalize to the empty string. -/
def LogQuerier.tokenize (lq : LogQuerier) (query : String) : List String :=
  let raw := scanAux lq.operationo_dict query.data.length query.data []
  (raw.map (parse_quoted_token lq.quote_string)).filter (fun t => !(t == ""))

mutual

/-- Inner `eval_next` of `_evaluate_tokens`: evaluate the next unary term at
`pos` (parenthesised group, negation, invalid operator, operand containment
test, or the out-of-tokens fallback `False, pos`). -/
def eval_next (fuel : Nat) (d : OperationDict) (tokens : List String) (log : String)
    (ci : Bool) (pos : Nat) : Except String (Bool × Nat) :=
  match fuel with
  | 0 => .error "fuel exhausted"
  | f + 1 =>
    if pos < tokens.length then
      let token := tokens.getD pos ""
      if token = d.LEFT_PARENTHESIS then
        match eval_or f d tokens log ci (pos + 1) with
        | .error e => .error e
        | .ok (result, next_pos) => .ok (result, next_pos + 1)
      else if token = d.NOT then
        match eval_next f d tokens log ci (pos + 1) with
        | .error e => .error e
        | .ok (result, next_pos) => .ok (!result, next_pos)
      else if token ∈ INVALID_EVAL_OPERATION_SET then
        .error ("Invalid operation token " ++ token ++ " encountered when evaluating query")
      else
        .ok ((if ci then pyContains (pyLower token) (pyLower log)
              else pyContains token log), pos + 1)
    else
      .ok (false, pos)
termination_by structural fuel

/-- Inner `eval_and` of `_evaluate_tokens`: one unary term followed by the
AND loop. -/
def eval_and (fuel : Nat) (d : OperationDict) (tokens : List String) (log : String)
    (ci : Bool) (pos : Nat) : Except String (Bool × Nat) :=
  match fuel with
  | 0 => .error "fuel exhausted"
  | f + 1 =>
    match eval_next f d tokens log ci pos with
    | .error e => .error e
    | .ok (result, next_pos) => eval_and_loop f d tokens log ci result next_pos
termination_by structural fuel

/-- The `while` loop of `eval_and`: as long as the next token is the AND
literal, evaluate the next unary term and conjoin it. -/
def eval_and_loop (fuel : Nat) (d : OperationDict) (tokens : List String) (log : String)
    (ci : Bool) (result : Bool) (pos : Nat) : Except String (Bool × Nat) :=
  match fuel with
  | 0 => .error "fuel exhausted"
  | f + 1 =>
    if pos < tokens.length ∧ tokens.getD pos "" = d.AND then
      match eval_next f d tokens log ci (pos + 1) with
      | .error e => .error e
      | .ok (next_result, next_pos) =>
        eval_and_loop f d tokens log ci (result && next_result) next_pos
    else
      .ok (result, pos)
termination_by structural fuel

/-- Inner `eval_or` of `_evaluate_tokens`: one AND-expression followed by the
OR loop. -/
def eval_or (fuel : Nat) (d : OperationDict) (tokens : List String) (log : String)
    (ci : Bool) (pos : Nat) : Except String (Bool × Nat) :=
  match fuel with
  | 0 => .error "fuel exhausted"
  | f + 1 =>
    match eval_and f d tokens log ci pos with
    | .error e => .error e
    | .ok (result, next_pos) => eval_or_loop f d tokens log ci result next_pos
termination_by structural fuel

/-- The `while` loop of `eval_or`: as long as the next token is the OR
literal, evaluate the next AND-expression and disjoin it. -/
def eval_or_loop (fuel : Nat) (d : OperationDict) (tokens : List String) (log : String)
    (ci : Bool) (result : Bool) (pos : Nat) : Except String (Bool × Nat) :=
  match fuel with
  | 0 => .error "fuel exhausted"
  | f + 1 =>
    if pos < tokens.length ∧ tokens.getD pos "" = d.OR then
      match eval_and f d tokens log ci (pos + 1) with
      | .error e => .error e
      | .ok (next_result, next_pos) =>
        eval_or_loop f d tokens log ci (result || next_result) next_pos
    else
      .ok (result, pos)
termination_by structural fuel

end

/-- The operand containment test of `eval_next`
(`token.lower() in log.lower() if enable_case_insensitive else token in log`),
named so that theorem statements can refer to it. -/
def evalOperand (ci : Bool) (token log : String) : Bool :=
  if ci then pyContains (pyLower token) (pyLower log) else pyContains token log

/-- Stack-depth budget for one evaluation.  Each recursive call decrements the
fuel by one, the position argument never decreases along a call chain, and an
induction over the five functions shows the depth from `eval_or` at position
`pos` is at most `4 * (tokens.length - pos) + 4`; `4 * tokens.length + 8`
therefore over-approximates the depth of the whole evaluation, so the
`fuel exhausted` branch is dead code from `evaluate_tokens`. -/
def evalFuel (tokens : List String) : Nat := 4 * tokens.length + 8

/-- `LogQuerier._evaluate_tokens(tokens, log, pos, enable_case_insensitive)`:
run the full OR-expression evaluation and keep the boolean
(`return eval_or(pos)[0]`). -/
def LogQuerier.evaluate_tokens (lq : LogQuerier) (tokens : List String) (log : String)
    (pos : Nat) (ci : Bool) : Except String Bool :=
  match eval_or (evalFuel tokens) lq.operationo_dict tokens log ci pos with
  | .error e => .error e
  | .ok (result, _) => .ok result

/-- The list comprehension in `query`:
`[log for log in self.logs if self._evaluate_tokens(tokens, log, 0, ...)]`,
with an exception from any element aborting the whole query. -/
def filterLogs (lq : LogQuerier) (tokens : List String) (ci : Bool) :
    List String → Except String (List String)
  | [] => .ok []
  | log :: rest =>
    match lq.evaluate_tokens tokens log 0 ci with
    | .error e => .error e
    | .ok b =>
      match filterLogs lq tokens ci rest with
      | .error e => .error e
      | .ok rs => .ok (if b then log :: rs else rs)

/-- Lines 198-205 of `query`: tokenize the query when it is nonempty
(`self._tokenize(query) if query else []`) and filter the corpus when the
token sequence is nonempty, else keep the whole corpus. -/
def LogQuerier.matchingLogs (lq : LogQuerier) (query : String) (ci : Bool) :
    Except String (List String) :=
  let tokens := if query = "" then [] else lq.tokenize query
  if tokens.isEmpty then .ok lq.logs else filterLogs lq tokens ci lq.logs

/-- Lines 207-218 of `query`: `if limit:` (false for `None` and for `0`), then
ascending keeps the tail slice `logs[-limit:]` and anything else keeps the
head slice `logs[:limit]` reversed. -/
def applyLimit (logs : List String) (limit : Option Nat) (ordering : String) : List String :=
  match limit with
  | none => logs
  | some l =>
    if l = 0 then logs
    else if ordering = "asc" then logs.drop (logs.length - l)
    else (logs.take l).reverse

/-- `LogQuerier.query(query, limit, ordering, enable_case_insensitive)`. -/
def LogQuerier.query (lq : LogQuerier) (query : String) (limit : Option Nat)
    (ordering : String) (ci : Bool) : Except String (List String) :=
  match lq.matchingLogs query ci with
  | .error e => .error e
  | .ok logs => .ok (applyLimit logs limit ordering)

/-- Python's in-place `list.reverse()` under the aliasing model used for the
frame claim: the local list variable is a pair `(aliased, value)` where
`aliased = true` means the variable still refers to the stored corpus object
(`logs = self.logs`), so reversing it in place would also change the stored
corpus; slicing (`logs[:limit]`, `logs[-limit:]`) and the list comprehension
allocate fresh objects (`aliased = false`). -/
def reverseInPlace (loc : Bool × List String) (stored : List String) :
    (Bool × List String) × List String :=
  ((loc.1, loc.2.reverse), if loc.1 then loc.2.reverse else stored)

/-- The local variable `logs` of `query` after lines 198-205, tagged with
whether it still aliases the stored corpus: the tokens-empty branch assigns
`logs = self.logs` (an alias), the comprehension allocates a fresh list. -/
def localFilteredVar (lq : LogQuerier) (query : String) (ci : Bool) :
    Except String (Bool × List String) :=
  let tokens := if query = "" then [] else lq.tokenize query
  if tokens.isEmpty then
    .ok (true, lq.logs)
  else
    match filterLogs lq tokens ci lq.logs with
    | .error e => .error e
    | .ok l => .ok (false, l)

/-- `LogQuerier.query` re-traced statement by statement, additionally
returning the final value of the stored corpus `self.logs` under the aliasing
model of `reverseInPlace` (also when an exception propagates). -/
def LogQuerier.queryWithState (lq : LogQuerier) (query : String) (limit : Option Nat)
    (ordering : String) (ci : Bool) : Except String (List String) × List String :=
  match localFilteredVar lq query ci with
  | .error e => (.error e, lq.logs)
  | .ok loc =>
    match limit with
    | none => (.ok loc.2, lq.logs)
    | some l =>
      if l = 0 then (.ok loc.2, lq.logs)
      else if ordering = "asc" then (.ok (loc.2.drop (loc.2.length - l)), lq.logs)
      else
        let sliced : Bool × List String := (false, loc.2.take l)
        let stepped := reverseInPlace sliced lq.logs
        (.ok stepped.1.2, stepped.2)

instance : DecidableEq (Except String (List String)) := fun a b =>
  match a, b with
  | .error e, .error e' => decidable_of_iff (e = e') (by simp)
  | .ok v, .ok v' => decidable_of_iff (v = v') (by simp)
  | .error _, .ok _ => isFalse (fun h => Except.noConfusion h)
  | .ok _, .error _ => isFalse (fun h => Except.noConfusion h)

instance : DecidableEq (Except String Bool) := fun a b =>
  match a, b with
  | .error e, .error e' => decidable_of_iff (e = e') (by simp)
  | .ok v, .ok v' => decidable_of_iff (v = v') (by simp)
  | .error _, .ok _ => isFalse (fun h => Except.noConfusion h)
  | .ok _, .error _ => isFalse (fun h => Except.noConfusion h)

/-- One-step unfolding of `eval_next` (with the `let token` zeta-expanded). -/
theorem eval_next_step (f : Nat) (d : OperationDict) (tokens : List String) (log : String)
    (ci : Bool) (pos : Nat) :
    eval_next (f + 1) d tokens log ci pos =
      (if pos < tokens.length then
        if tokens.getD pos "" = d.LEFT_PARENTHESIS then
          match eval_or f d tokens log ci (pos + 1) with
          | .error e => .error e
          | .ok (result, next_pos) => .ok (result, next_pos + 1)
        else if tokens.getD pos "" = d.NOT then
          match eval_next f d tokens log ci (pos + 1) with
          | .error e => .error e
          | .ok (result, next_pos) => .ok (!result, next_pos)
        else if tokens.getD pos "" ∈ INVALID_EVAL_OPERATION_SET then
          .error ("Invalid operation token " ++ tokens.getD pos "" ++
            " encountered when evaluating query")
        else
          .ok (evalOperand ci (tokens.getD pos "") log, pos + 1)
      else
        .ok (false, pos)) := rfl

/-- One-step unfolding of `eval_and`. -/
theorem eval_and_step (f : Nat) (d : OperationDict) (tokens : List String) (log : String)
    (ci : Bool) (pos : Nat) :
    eval_and (f + 1) d tokens log ci pos =
      (match eval_next f d tokens log ci pos with
      | .error e => .error e
      | .ok (result, next_pos) => eval_and_loop f d tokens log ci result next_pos) := rfl

/-- One-step unfolding of `eval_and_loop`. -/
theorem eval_and_loop_step (f : Nat) (d : OperationDict) (tokens : List String) (log : String)
    (ci : Bool) (result : Bool) (pos : Nat) :
    eval_and_loop (f + 1) d tokens log ci result pos =
      (if pos < tokens.length ∧ tokens.getD pos "" = d.AND then
        match eval_next f d tokens log ci (pos + 1) with
        | .error e => .error e
        | .ok (next_result, next_pos) =>
          eval_and_loop f d tokens log ci (result && next_result) next_pos
      else
        .ok (result, pos)) := rfl

/-- One-step unfolding of `eval_or`. -/
theorem eval_or_step (f : Nat) (d : OperationDict) (tokens : List String) (log : String)
    (ci : Bool) (pos : Nat) :
    eval_or (f + 1) d tokens log ci pos =
      (match eval_and f d tokens log ci pos with
      | .error e => .error e
      | .ok (result, next_pos) => eval_or_loop f d tokens log ci result next_pos) := rfl

/-- One-step unfolding of `eval_or_loop`. -/
theorem eval_or_loop_step (f : Nat) (d : OperationDict) (tokens : List String) (log : String)
    (ci : Bool) (result : Bool) (pos : Nat) :
    eval_or_loop (f + 1) d tokens log ci result pos =
      (if pos < tokens.length ∧ tokens.getD pos "" = d.OR then
        match eval_and f d tokens log ci (pos + 1) with
        | .error e => .error e
        | .ok (next_result, next_pos) =>
          eval_or_loop f d tokens log ci (result || next_result) next_pos
      else
        .ok (result, pos)) := rfl

/-- The out-of-tokens fallback of `eval_next` (`return False, pos`). -/
theorem eval_next_exhausted (f : Nat) (d : OperationDict) (tokens : List String)
    (log : String) (ci : Bool) (pos : Nat) (h : tokens.length ≤ pos) :
    eval_next (f + 1) d tokens log ci pos = .ok (false, pos) := by
  rw [eval_next_step, if_neg (by omega)]

/-- The operand branch of `eval_next`: a token that is not the configured
LEFT_PARENTHESIS or NOT literal and not in `INVALID_EVAL_OPERATION_SET` is
tested for containment in the log line. -/
theorem eval_next_operand (f : Nat) (d : OperationDict) (tokens : List String)
    (log : String) (ci : Bool) (pos : Nat) (t : String)
    (hpos : pos < tokens.length) (ht : tokens.getD pos "" = t)
    (h1 : t ≠ d.LEFT_PARENTHESIS) (h2 : t ≠ d.NOT)
    (h3 : t ∉ INVALID_EVAL_OPERATION_SET) :
    eval_next (f + 1) d tokens log ci pos = .ok (evalOperand ci t log, pos + 1) := by
  rw [eval_next_step, if_pos hpos, ht, if_neg h1, if_neg h2, if_neg h3]

/-- `eval_and_loop` stops when the next token is not the AND literal. -/
theorem eval_and_loop_exit (f : Nat) (d : OperationDict) (tokens : List String)
    (log : String) (ci : Bool) (result : Bool) (pos : Nat)
    (h : ¬(pos < tokens.length ∧ tokens.getD pos "" = d.AND)) :
    eval_and_loop (f + 1) d tokens log ci result pos = .ok (result, pos) := by
  rw [eval_and_loop_step, if_neg h]

/-- `eval_or_loop` stops when the next token is not the OR literal. -/
theorem eval_or_loop_exit (f : Nat) (d : OperationDict) (tokens : List String)
    (log : String) (ci : Bool) (result : Bool) (pos : Nat)
    (h : ¬(pos < tokens.length ∧ tokens.getD pos "" = d.OR)) :
    eval_or_loop (f + 1) d tokens log ci result pos = .ok (result, pos) := by
  rw [eval_or_loop_step, if_neg h]

theorem default_operationo_dict :
    (defaultQuerier []).operationo_dict = ⟨"&&", "||", "!!", "((", "))"⟩ := by decide

theorem invalid_set_eq : INVALID_EVAL_OPERATION_SET = ["&&", "||", "))"] := by decide

/-- Evaluating a single operand token: the full OR-expression evaluation over
one non-operator token is the containment test. -/
theorem eval_or_single (d : OperationDict) (t line : String) (ci : Bool)
    (h1 : t ≠ d.LEFT_PARENTHESIS) (h2 : t ≠ d.NOT)
    (h3 : t ∉ INVALID_EVAL_OPERATION_SET) :
    eval_or 12 d [t] line ci 0 = .ok (evalOperand ci t line, 1) := by
  have e1 : eval_next 10 d [t] line ci 0 = .ok (evalOperand ci t line, 1) :=
    eval_next_operand 9 d [t] line ci 0 t (by simp) rfl h1 h2 h3
  have e2 : eval_and_loop 10 d [t] line ci (evalOperand ci t line) 1
      = .ok (evalOperand ci t line, 1) :=
    eval_and_loop_exit 9 d [t] line ci _ 1 (by simp)
  have e3 : eval_and 11 d [t] line ci 0 = .ok (evalOperand ci t line, 1) := by
    rw [eval_and_step, e1]
    exact e2
  have e4 : eval_or_loop 11 d [t] line ci (evalOperand ci t line) 1
      = .ok (evalOperand ci t line, 1) :=
    eval_or_loop_exit 10 d [t] line ci _ 1 (by simp)
  rw [eval_or_step, e3]
  exact e4

/-- `_evaluate_tokens` on a single operand token. -/
theorem evaluate_tokens_single (lq : LogQuerier) (t line : String) (ci : Bool)
    (h1 : t ≠ lq.operationo_dict.LEFT_PARENTHESIS) (h2 : t ≠ lq.operationo_dict.NOT)
    (h3 : t ∉ INVALID_EVAL_OPERATION_SET) :
    lq.evaluate_tokens [t] line 0 ci = .ok (evalOperand ci t line) := by
  unfold LogQuerier.evaluate_tokens
  rw [show evalFuel [t] = 12 from rfl, eval_or_single lq.operationo_dict t line ci h1 h2 h3]

theorem isSubstrCL_nil_hay (n : List Char) :
    isSubstrCL n [] = if isPrefixCL n [] then true else false := rfl

theorem isSubstrCL_cons_hay (n : List Char) (c : Char) (rest : List Char) :
    isSubstrCL n (c :: rest) =
      if isPrefixCL n (c :: rest) then true else isSubstrCL n rest := rfl

theorem isSubstrCL_nil_needle (hay : List Char) : isSubstrCL [] hay = true := by
  cases hay with
  | nil => rfl
  | cons c rest => rfl

theorem isSubstrCL_of_isPrefixCL_drop {n : List Char} :
    ∀ (cs : List Char) (i : Nat), isPrefixCL n (cs.drop i) = true → isSubstrCL n cs = true
  | [], i, h => by
    rw [List.drop_nil] at h
    rw [isSubstrCL_nil_hay, if_pos h]
  | c :: rest, 0, h => by
    rw [List.drop_zero] at h
    rw [isSubstrCL_cons_hay, if_pos h]
  | c :: rest, i + 1, h => by
    rw [List.drop_succ_cons] at h
    have ih := isSubstrCL_of_isPrefixCL_drop rest i h
    rw [isSubstrCL_cons_hay]
    split
    · rfl
    · exact ih

/-- When no operator literal occurs anywhere in `q`, no scan position matches
an operator. -/
theorem findOp_none_of_not_contains (d : OperationDict) (q : String)
    (h : ∀ op ∈ opValues d, pyContains op q = false) (i : Nat) :
    findOp d (q.data.drop i) = none := by
  cases hf : findOp d (q.data.drop i) with
  | none => rfl
  | some op =>
    obtain ⟨hmem, -, hpre⟩ := findOp_some_facts hf
    have hsub := isSubstrCL_of_isPrefixCL_drop q.data i hpre
    have hc := h op hmem
    rw [pyContains, hsub] at hc
    cases hc

/-- One-step unfolding of `scanAux` in the recursive case. -/
theorem scanAux_succ (d : OperationDict) (f : Nat) (cs acc : List Char) :
    scanAux d (f + 1) cs acc =
      (match findOp d cs with
      | some op =>
        (if acc.isEmpty then [] else [String.mk acc]) ++
          op :: scanAux d f (cs.drop op.data.length) []
      | none =>
        match cs with
        | [] => if acc.isEmpty then [] else [String.mk acc]
        | c :: rest => scanAux d f rest (acc ++ [c])) := rfl

/-- A scan that never matches an operator returns the whole text as one
pending operand. -/
theorem scanAux_no_ops (d : OperationDict) :
    ∀ (f : Nat) (cs acc : List Char), (∀ i, findOp d (cs.drop i) = none) →
      scanAux d f cs acc =
        (if (acc ++ cs).isEmpty then [] else [String.mk (acc ++ cs)])
  | 0, cs, acc, _ => rfl
  | f + 1, cs, acc, h => by
    have h0 := h 0
    rw [List.drop_zero] at h0
    cases cs with
    | nil =>
      rw [scanAux_succ, h0]
      show (if acc.isEmpty then [] else [String.mk acc]) = _
      rw [List.append_nil]
    | cons c rest =>
      have h' : ∀ i, findOp d (rest.drop i) = none := fun i => by
        have hi := h (i + 1)
        rwa [List.drop_succ_cons] at hi
      rw [scanAux_succ, h0]
      show scanAux d f rest (acc ++ [c]) = _
      rw [scanAux_no_ops d f rest (acc ++ [c]) h']
      simp

/-- Tokenizing a query that contains no occurrence of any configured operator
literal yields the single normalized operand (or nothing when it normalizes
to the empty string). -/
theorem tokenize_no_ops (lq : LogQuerier) (q : String)
    (h : ∀ op ∈ opValues lq.operationo_dict, pyContains op q = false) :
    lq.tokenize q =
      (if parse_quoted_token lq.quote_string q = "" then []
       else [parse_quoted_token lq.quote_string q]) := by
  unfold LogQuerier.tokenize
  rw [scanAux_no_ops lq.operationo_dict q.data.length q.data []
    (findOp_none_of_not_contains _ _ h)]
  rw [List.nil_append]
  by_cases hq : q.data = []
  · have hq' : q = "" := by
      cases q
      simp_all
    subst hq'
    have hpq : parse_quoted_token lq.quote_string "" = "" := rfl
    simp [hpq]
  · rw [if_neg (by simpa using hq)]
    have hmk : String.mk q.data = q := rfl
    rw [hmk]
    show List.filter (fun t => !(t == ""))
        (List.map (parse_quoted_token lq.quote_string) [q]) = _
    rw [List.map_cons, List.map_nil, List.filter_cons]
    by_cases hp : parse_quoted_token lq.quote_string q = ""
    · simp [hp]
    · simp [hp]

/-- Evaluating the empty operand matches every line (the empty string is a
substring of everything). -/
theorem evalOperand_empty (ci : Bool) (line : String) : evalOperand ci "" line = true := by
  cases ci
  · exact isSubstrCL_nil_needle line.data
  · exact isSubstrCL_nil_needle (pyLower line).data

/-- The list comprehension `filterLogs` is `List.filter` when every per-line
evaluation succeeds with predicate `p`. -/
theorem filterLogs_eq (lq : LogQuerier) (tokens : List String) (ci : Bool)
    (p : String → Bool)
    (h : ∀ log, lq.evaluate_tokens tokens log 0 ci = .ok (p log)) :
    ∀ logs, filterLogs lq tokens ci logs = .ok (logs.filter p)
  | [] => rfl
  | log :: rest => by
    rw [filterLogs, h log, filterLogs_eq lq tokens ci p h rest, List.filter_cons]

theorem applyLimit_nil (limit : Option Nat) (ordering : String) :
    applyLimit [] limit ordering = [] := by
  cases limit with
  | none => rfl
  | some l => by_cases hl : l = 0 <;> by_cases ho : ordering = "asc" <;> simp [applyLimit, hl, ho]

/-- C1: for every corpus and query whose evaluation succeeds with at least one
match and every positive limit: with no limit all matching lines are returned
in corpus order (for any ordering); with a limit and ordering `asc` the last
`limit` matching lines are returned in original order; with a limit and
ordering `desc` the first `limit` matching lines are returned reversed. -/
theorem claim_C1_limit_ordering (lq : LogQuerier) (q : String) (l : Nat) (ci : Bool)
    (ms : List String) (hms : lq.matchingLogs q ci = .ok ms) (hne : ms ≠ [])
    (hl : 1 ≤ l) :
    (∀ ordering, lq.query q none ordering ci = .ok ms) ∧
    lq.query q (some l) "asc" ci = .ok (ms.drop (ms.length - l)) ∧
    lq.query q (some l) "desc" ci = .ok ((ms.take l).reverse) := by
  have hl0 : l ≠ 0 := by omega
  refine ⟨fun ordering => ?_, ?_, ?_⟩ <;>
    · unfold LogQuerier.query
      rw [hms]
      simp [applyLimit, hl0]

/-- C1 witness: a concrete corpus and query exercising all three conclusions. -/
theorem claim_C1_witness :
    (defaultQuerier ["a1", "b", "a2"]).query "a" (some 1) "asc" false = .ok ["a2"] ∧
    (defaultQuerier ["a1", "b", "a2"]).query "a" (some 1) "desc" false = .ok ["a1"] ∧
    (defaultQuerier ["a1", "b", "a2"]).query "a" none "asc" false = .ok ["a1", "a2"] := by
  have h := claim_C1_limit_ordering (defaultQuerier ["a1", "b", "a2"]) "a" 1 false
    ["a1", "a2"] rfl (by decide) (by decide)
  exact ⟨h.2.1, h.2.2, h.1 "asc"⟩

/-- C2 (amended): whenever evaluation requires a term at a position whose
token is one of the default literals in `INVALID_EVAL_OPERATION_SET`
(`&&`, `||`, `))`) and that token is not the configured LEFT_PARENTHESIS or
NOT literal, evaluation raises (returns an error, not a boolean); in
particular, with the default configuration, evaluating the query `&& a`
raises for every line. -/
theorem claim_C2_invalid_token :
    (∀ (f : Nat) (d : OperationDict) (tokens : List String) (log : String) (ci : Bool)
        (pos : Nat), pos < tokens.length →
        tokens.getD pos "" ∈ INVALID_EVAL_OPERATION_SET →
        tokens.getD pos "" ≠ d.LEFT_PARENTHESIS →
        tokens.getD pos "" ≠ d.NOT →
        eval_next (f + 1) d tokens log ci pos =
          .error ("Invalid operation token " ++ tokens.getD pos "" ++
            " encountered when evaluating query")) ∧
    (∀ (line : String) (ci : Bool),
        (defaultQuerier []).evaluate_tokens ((defaultQuerier []).tokenize "&& a") line 0 ci =
          .error "Invalid operation token && encountered when evaluating query") := by
  constructor
  · intro f d tokens log ci pos hpos hmem hlp hnot
    rw [eval_next_step, if_pos hpos, if_neg hlp, if_neg hnot, if_pos hmem]
  · intro line ci
    rfl

/-- C2 witness: the default configuration raising on a leading `&&`. -/
theorem claim_C2_witness :
    eval_next 1 (unescapeOperationDict OPERATION_DICT) ["&&"] "x" false 0 =
      .error "Invalid operation token && encountered when evaluating query" :=
  claim_C2_invalid_token.1 0 (unescapeOperationDict OPERATION_DICT) ["&&"] "x" false 0
    (by decide) (by decide) (by decide) (by decide)

/-- C2 counterexample to the claim as stated: with a custom configuration
whose AND literal is `##`, the token `##` — the AND literal of the configured
operator set — at a position where a term is required does NOT raise: it is
evaluated as an operand and returns a boolean. -/
theorem claim_C2_counterexample :
    (mkLogQuerier [] ⟨"##", "\\|\\|", "\\!\\!", "\\(\\(", "\\)\\)"⟩ QUOTE_STRING).evaluate_tokens
        ["##"] "x" 0 false = .ok false ∧
    (mkLogQuerier [] ⟨"##", "\\|\\|", "\\!\\!", "\\(\\(", "\\)\\)"⟩
        QUOTE_STRING).operationo_dict.AND = "##" :=
  ⟨rfl, rfl⟩

/-- C3: a term required at or beyond the end of the token sequence evaluates
to `false` with the position unchanged and no error; in particular `a &&`
evaluates per line to `(a in line) and false = false`, and the query
operation returns an empty result for any corpus, limit and ordering. -/
theorem claim_C3_exhausted_fallback :
    (∀ (f : Nat) (d : OperationDict) (tokens : List String) (log : String) (ci : Bool)
        (pos : Nat), tokens.length ≤ pos →
        eval_next (f + 1) d tokens log ci pos = .ok (false, pos)) ∧
    (∀ (line : String) (ci : Bool),
        (defaultQuerier []).evaluate_tokens ((defaultQuerier []).tokenize "a &&") line 0 ci =
          .ok false) ∧
    (∀ (logs : List String) (limit : Option Nat) (ordering : String) (ci : Bool),
        (defaultQuerier logs).query "a &&" limit ordering ci = .ok []) := by
  have heval : ∀ (logs : List String) (line : String) (ci : Bool),
      (defaultQuerier logs).evaluate_tokens ["a", "&&"] line 0 ci = .ok false := by
    intro logs line ci
    show Except.ok (evalOperand ci "a" line && false) = Except.ok false
    rw [Bool.and_false]
  refine ⟨fun f d tokens log ci pos h => eval_next_exhausted f d tokens log ci pos h, ?_, ?_⟩
  · intro line ci
    rw [show (defaultQuerier []).tokenize "a &&" = ["a", "&&"] from rfl]
    exact heval [] line ci
  · intro logs limit ordering ci
    have hm : (defaultQuerier logs).matchingLogs "a &&" ci =
        .ok (logs.filter (fun _ => false)) := by
      show filterLogs (defaultQuerier logs) ["a", "&&"] ci logs = _
      exact filterLogs_eq _ _ _ _ (fun line => heval logs line ci) logs
    unfold LogQuerier.query
    rw [hm, List.filter_false]
    show Except.ok (applyLimit [] limit ordering) = Except.ok []
    rw [applyLimit_nil]

/-- C3 witness: the fallback on the empty token sequence. -/
theorem claim_C3_witness :
    eval_next 1 (unescapeOperationDict OPERATION_DICT) [] "x" false 0 = .ok (false, 0) :=
  claim_C3_exhausted_fallback.1 0 (unescapeOperationDict OPERATION_DICT) [] "x" false 0
    (by decide)

/-- C5: the empty query string with no limit returns the full corpus in its
original order (the tokens-empty branch is taken, so no per-line evaluation
runs). -/
theorem claim_C5_empty_query (lq : LogQuerier) (ordering : String) (ci : Bool) :
    lq.query "" none ordering ci = .ok lq.logs := rfl

/-- C8: after `query` returns (or raises), the stored corpus `self.logs` is
unchanged: the in-place reversal on the descending path is applied to the
fresh list produced by the `logs[:limit]` slice, never to the stored list. -/
theorem claim_C8_frame (lq : LogQuerier) (q : String) (limit : Option Nat)
    (ordering : String) (ci : Bool) :
    (lq.queryWithState q limit ordering ci).2 = lq.logs := by
  unfold LogQuerier.queryWithState
  cases hf : localFilteredVar lq q ci with
  | error e => rfl
  | ok loc =>
    cases limit with
    | none => rfl
    | some l =>
      by_cases hl : l = 0
      · simp [hl]
      · by_cases ho : ordering = "asc"
        · simp [hl, ho]
        · simp [hl, ho, reverseInPlace]

/-- C9: a nonempty query whose tokenization is empty behaves exactly like the
empty query string: with any limit and ordering it agrees with the empty
query, and with no limit it returns the full corpus in original order. -/
theorem claim_C9_empty_tokenization (lq : LogQuerier) (q : String) (limit : Option Nat)
    (ordering : String) (ci : Bool) (hq : q ≠ "") (ht : lq.tokenize q = []) :
    lq.query q limit ordering ci = lq.query "" limit ordering ci ∧
    lq.query q none ordering ci = .ok lq.logs := by
  have h1 : lq.matchingLogs q ci = .ok lq.logs := by
    unfold LogQuerier.matchingLogs
    rw [if_neg hq, ht]
    rfl
  have h2 : lq.matchingLogs "" ci = .ok lq.logs := rfl
  constructor
  · unfold LogQuerier.query
    rw [h1, h2]
  · unfold LogQuerier.query
    rw [h1]
    rfl

/-- C9 witness: a whitespace-only query on a concrete corpus. -/
theorem claim_C9_witness :
    (defaultQuerier ["x"]).query " " none "asc" false =
        (defaultQuerier ["x"]).query "" none "asc" false ∧
    (defaultQuerier ["x"]).query " " none "asc" false = .ok ["x"] :=
  claim_C9_empty_tokenization (defaultQuerier ["x"]) " " none "asc" false
    (by decide) rfl

/-- C10 (amended): the invalid-token check is against the fixed default set
`INVALID_EVAL_OPERATION_SET` built at module level; a custom AND, OR or
RIGHT_PARENTHESIS literal that is outside that fixed set and distinct from
the configured LEFT_PARENTHESIS and NOT literals is, where a term is
expected, evaluated as an ordinary operand (substring containment) instead
of raising. -/
theorem claim_C10_custom_literal_operand (f : Nat) (d : OperationDict)
    (tokens : List String) (log : String) (ci : Bool) (pos : Nat)
    (hpos : pos < tokens.length)
    (hlit : tokens.getD pos "" ∈ [d.AND, d.OR, d.RIGHT_PARENTHESIS])
    (hinv : tokens.getD pos "" ∉ INVALID_EVAL_OPERATION_SET)
    (hlp : tokens.getD pos "" ≠ d.LEFT_PARENTHESIS)
    (hnot : tokens.getD pos "" ≠ d.NOT) :
    eval_next (f + 1) d tokens log ci pos =
      .ok (evalOperand ci (tokens.getD pos "") log, pos + 1) :=
  eval_next_operand f d tokens log ci pos _ hpos rfl hlp hnot hinv

/-- C10 witness: custom AND literal `##` evaluated as an operand. -/
theorem claim_C10_witness :
    eval_next 1 (unescapeOperationDict ⟨"##", "\\|\\|", "\\!\\!", "\\(\\(", "\\)\\)"⟩)
        ["##"] "x" false 0 = .ok (evalOperand false "##" "x", 1) :=
  claim_C10_custom_literal_operand 0
    (unescapeOperationDict ⟨"##", "\\|\\|", "\\!\\!", "\\(\\(", "\\)\\)"⟩) ["##"] "x" false 0
    (by decide) (by decide) (by decide) (by decide) (by decide)

/-- C10 counterexample to the claim as stated: the custom AND literal `!!`
differs from the default `&&`, yet at a term position it is NOT evaluated as
an operand — it hits the configured NOT branch first (the result `true`
disagrees with the containment test, which is `false`). -/
theorem claim_C10_counterexample :
    (mkLogQuerier [] ⟨"\\!\\!", "\\|\\|", "\\!\\!", "\\(\\(", "\\)\\)"⟩
        QUOTE_STRING).evaluate_tokens ["!!"] "abc" 0 false = .ok true ∧
    evalOperand false "!!" "abc" = false ∧
    (mkLogQuerier [] ⟨"\\!\\!", "\\|\\|", "\\!\\!", "\\(\\(", "\\)\\)"⟩
        QUOTE_STRING).operationo_dict.AND = "!!" ∧
    ("!!" : String) ≠ "&&" :=
  ⟨rfl, rfl, rfl, by decide⟩

/-- `eval_and_loop` iterates when the next token is the AND literal. -/
theorem eval_and_loop_enter (f : Nat) (d : OperationDict) (tokens : List String)
    (log : String) (ci : Bool) (result : Bool) (pos : Nat)
    (h : pos < tokens.length ∧ tokens.getD pos "" = d.AND) :
    eval_and_loop (f + 1) d tokens log ci result pos =
      (match eval_next f d tokens log ci (pos + 1) with
      | .error e => .error e
      | .ok (next_result, next_pos) =>
        eval_and_loop f d tokens log ci (result && next_result) next_pos) := by
  rw [eval_and_loop_step, if_pos h]

/-- `eval_or_loop` iterates when the next token is the OR literal. -/
theorem eval_or_loop_enter (f : Nat) (d : OperationDict) (tokens : List String)
    (log : String) (ci : Bool) (result : Bool) (pos : Nat)
    (h : pos < tokens.length ∧ tokens.getD pos "" = d.OR) :
    eval_or_loop (f + 1) d tokens log ci result pos =
      (match eval_and f d tokens log ci (pos + 1) with
      | .error e => .error e
      | .ok (next_result, next_pos) =>
        eval_or_loop f d tokens log ci (result || next_result) next_pos) := by
  rw [eval_or_loop_step, if_pos h]

/-- C4 (amended): for a query containing no occurrence of any configured
operator literal whose normalized text (trimmed, quote-marker removed) is
neither the configured LEFT_PARENTHESIS nor NOT literal nor a member of the
fixed invalid set, `query` with no limit returns exactly the corpus lines
containing the normalized text as a substring (on lowercased operand and
line when the case-insensitive flag is set). -/
theorem claim_C4_no_operator_query (lq : LogQuerier) (q : String) (ordering : String)
    (ci : Bool)
    (hops : ∀ op ∈ opValues lq.operationo_dict, pyContains op q = false)
    (h1 : parse_quoted_token lq.quote_string q ≠ lq.operationo_dict.LEFT_PARENTHESIS)
    (h2 : parse_quoted_token lq.quote_string q ≠ lq.operationo_dict.NOT)
    (h3 : parse_quoted_token lq.quote_string q ∉ INVALID_EVAL_OPERATION_SET) :
    lq.query q none ordering ci =
      .ok (lq.logs.filter (fun line =>
        evalOperand ci (parse_quoted_token lq.quote_string q) line)) := by
  have htok := tokenize_no_ops lq q hops
  by_cases hp : parse_quoted_token lq.quote_string q = ""
  · have hmatch : lq.matchingLogs q ci = .ok lq.logs := by
      unfold LogQuerier.matchingLogs
      by_cases hq : q = ""
      · rw [if_pos hq]
        rfl
      · rw [if_neg hq, htok, if_pos hp]
        rfl
    unfold LogQuerier.query
    rw [hmatch, hp]
    show Except.ok lq.logs = _
    rw [show (fun line => evalOperand ci "" line) = (fun _ : String => true) from
      funext fun line => evalOperand_empty ci line]
    rw [List.filter_true]
  · have hq : q ≠ "" := by
      intro hq0
      subst hq0
      exact hp rfl
    have hmatch : lq.matchingLogs q ci =
        .ok (lq.logs.filter (fun line =>
          evalOperand ci (parse_quoted_token lq.quote_string q) line)) := by
      unfold LogQuerier.matchingLogs
      rw [if_neg hq, htok, if_neg hp]
      show filterLogs lq [parse_quoted_token lq.quote_string q] ci lq.logs = _
      exact filterLogs_eq lq _ ci _
        (fun line => evaluate_tokens_single lq _ line ci h1 h2 h3) lq.logs
    unfold LogQuerier.query
    rw [hmatch]
    rfl

/-- C4 witness: an operator-free query with the case-insensitive flag. -/
theorem claim_C4_witness :
    (defaultQuerier ["Error: disk", "info"]).query "error" none "asc" true =
      .ok ["Error: disk"] := by
  have h := claim_C4_no_operator_query (defaultQuerier ["Error: disk", "info"]) "error"
    "asc" true (by decide) (by decide) (by decide) (by decide)
  exact h

/-- C4 counterexample to the claim as stated: the query `&""&` contains no
configured operator literal, yet quote-marker removal turns it into the
operator `&&`, so `query` raises instead of returning the lines containing
the normalized text. -/
theorem claim_C4_counterexample :
    pyContains "&&" "&\"\"&" = false ∧
    pyContains "||" "&\"\"&" = false ∧
    pyContains "!!" "&\"\"&" = false ∧
    pyContains "((" "&\"\"&" = false ∧
    pyContains "))" "&\"\"&" = false ∧
    parse_quoted_token QUOTE_STRING "&\"\"&" = "&&" ∧
    (defaultQuerier ["x&&y"]).query "&\"\"&" none "asc" false =
      .error "Invalid operation token && encountered when evaluating query" ∧
    ["x&&y"].filter (fun line => evalOperand false "&&" line) = ["x&&y"] ∧
    (defaultQuerier ["x&&y"]).query "&\"\"&" none "asc" false ≠
      .ok (["x&&y"].filter (fun line => evalOperand false "&&" line)) := by
  refine ⟨rfl, rfl, rfl, rfl, rfl, rfl, rfl, rfl, ?_⟩
  decide

/-- C6: AND binds tighter than OR: a query tokenizing to `A && B || C` (for
operand strings A, B, C) evaluates on every line to
`(A in line AND B in line) OR C in line`. -/
theorem claim_C6_precedence (A B C line : String) (ci : Bool) (q : String)
    (hq : (defaultQuerier []).tokenize q = [A, "&&", B, "||", C])
    (hA : A ∉ (["&&", "||", "!!", "((", "))"] : List String))
    (hB : B ∉ (["&&", "||", "!!", "((", "))"] : List String))
    (hC : C ∉ (["&&", "||", "!!", "((", "))"] : List String)) :
    (defaultQuerier []).evaluate_tokens ((defaultQuerier []).tokenize q) line 0 ci =
      .ok ((evalOperand ci A line && evalOperand ci B line) || evalOperand ci C line) := by
  simp only [List.mem_cons, List.not_mem_nil, or_false, not_or] at hA hB hC
  obtain ⟨hA1, hA2, hA3, hA4, hA5⟩ := hA
  obtain ⟨hB1, hB2, hB3, hB4, hB5⟩ := hB
  obtain ⟨hC1, hC2, hC3, hC4, hC5⟩ := hC
  have hAinv : A ∉ INVALID_EVAL_OPERATION_SET := by
    rw [invalid_set_eq]
    simp [hA1, hA2, hA5]
  have hBinv : B ∉ INVALID_EVAL_OPERATION_SET := by
    rw [invalid_set_eq]
    simp [hB1, hB2, hB5]
  have hCinv : C ∉ INVALID_EVAL_OPERATION_SET := by
    rw [invalid_set_eq]
    simp [hC1, hC2, hC5]
  have hlen : List.length [A, "&&", B, "||", C] = 5 := rfl
  rw [hq]
  unfold LogQuerier.evaluate_tokens
  rw [show evalFuel [A, "&&", B, "||", C] = 28 from rfl, default_operationo_dict]
  have e1 : eval_next 26 ⟨"&&", "||", "!!", "((", "))"⟩ [A, "&&", B, "||", C] line ci 0 =
      .ok (evalOperand ci A line, 1) :=
    eval_next_operand 25 _ _ line ci 0 A (by rw [hlen]; decide) rfl hA4 hA3 hAinv
  have e2 : eval_next 25 ⟨"&&", "||", "!!", "((", "))"⟩ [A, "&&", B, "||", C] line ci 2 =
      .ok (evalOperand ci B line, 3) :=
    eval_next_operand 24 _ _ line ci 2 B (by rw [hlen]; decide) rfl hB4 hB3 hBinv
  have e3 : eval_and_loop 25 ⟨"&&", "||", "!!", "((", "))"⟩ [A, "&&", B, "||", C] line ci
      (evalOperand ci A line && evalOperand ci B line) 3 =
      .ok (evalOperand ci A line && evalOperand ci B line, 3) :=
    eval_and_loop_exit 24 _ _ line ci _ 3
      (by rw [hlen, show List.getD [A, "&&", B, "||", C] 3 "" = "||" from rfl]; decide)
  have e4 : eval_and_loop 26 ⟨"&&", "||", "!!", "((", "))"⟩ [A, "&&", B, "||", C] line ci
      (evalOperand ci A line) 1 =
      .ok (evalOperand ci A line && evalOperand ci B line, 3) := by
    rw [eval_and_loop_enter 25 _ _ line ci (evalOperand ci A line) 1
      ⟨by rw [hlen]; decide, rfl⟩, e2]
    exact e3
  have e5 : eval_and 27 ⟨"&&", "||", "!!", "((", "))"⟩ [A, "&&", B, "||", C] line ci 0 =
      .ok (evalOperand ci A line && evalOperand ci B line, 3) := by
    rw [eval_and_step, e1]
    exact e4
  have e6 : eval_next 25 ⟨"&&", "||", "!!", "((", "))"⟩ [A, "&&", B, "||", C] line ci 4 =
      .ok (evalOperand ci C line, 5) :=
    eval_next_operand 24 _ _ line ci 4 C (by rw [hlen]; decide) rfl hC4 hC3 hCinv
  have e7 : eval_and_loop 25 ⟨"&&", "||", "!!", "((", "))"⟩ [A, "&&", B, "||", C] line ci
      (evalOperand ci C line) 5 = .ok (evalOperand ci C line, 5) :=
    eval_and_loop_exit 24 _ _ line ci _ 5 (by rw [hlen]; simp)
  have e8 : eval_and 26 ⟨"&&", "||", "!!", "((", "))"⟩ [A, "&&", B, "||", C] line ci 4 =
      .ok (evalOperand ci C line, 5) := by
    rw [eval_and_step, e6]
    exact e7
  have e9 : eval_or_loop 26 ⟨"&&", "||", "!!", "((", "))"⟩ [A, "&&", B, "||", C] line ci
      ((evalOperand ci A line && evalOperand ci B line) || evalOperand ci C line) 5 =
      .ok ((evalOperand ci A line && evalOperand ci B line) || evalOperand ci C line, 5) :=
    eval_or_loop_exit 25 _ _ line ci _ 5 (by rw [hlen]; simp)
  have e10 : eval_or_loop 27 ⟨"&&", "||", "!!", "((", "))"⟩ [A, "&&", B, "||", C] line ci
      (evalOperand ci A line && evalOperand ci B line) 3 =
      .ok ((evalOperand ci A line && evalOperand ci B line) || evalOperand ci C line, 5) := by
    rw [eval_or_loop_enter 26 _ _ line ci _ 3 ⟨by rw [hlen]; decide, rfl⟩, e8]
    exact e9
  have hor : eval_or 28 ⟨"&&", "||", "!!", "((", "))"⟩ [A, "&&", B, "||", C] line ci 0 =
      .ok ((evalOperand ci A line && evalOperand ci B line) || evalOperand ci C line, 5) := by
    rw [eval_or_step, e5]
    exact e10
  rw [hor]

/-- C6 witness: concrete operands on a line distinguishing the two parses. -/
theorem claim_C6_witness :
    (defaultQuerier []).evaluate_tokens ((defaultQuerier []).tokenize "a && b || c") "c" 0 false
      = .ok true ∧
    (evalOperand false "a" "c" && (evalOperand false "b" "c" || evalOperand false "c" "c"))
      = false := by
  constructor
  · exact claim_C6_precedence "a" "b" "c" "c" false "a && b || c" rfl (by decide) (by decide)
      (by decide)
  · decide

/-- C7: NOT is self-inverse: a query tokenizing to `!! !! X` (two NOT tokens
before an operand X) evaluates on every line exactly like a query tokenizing
to `X` alone. -/
theorem claim_C7_double_negation (X line : String) (ci : Bool) (q q2 : String)
    (hq : (defaultQuerier []).tokenize q = ["!!", "!!", X])
    (hq2 : (defaultQuerier []).tokenize q2 = [X])
    (hX : X ∉ (["&&", "||", "!!", "((", "))"] : List String)) :
    (defaultQuerier []).evaluate_tokens ((defaultQuerier []).tokenize q) line 0 ci =
      (defaultQuerier []).evaluate_tokens ((defaultQuerier []).tokenize q2) line 0 ci := by
  simp only [List.mem_cons, List.not_mem_nil, or_false, not_or] at hX
  obtain ⟨hX1, hX2, hX3, hX4, hX5⟩ := hX
  have hXinv : X ∉ INVALID_EVAL_OPERATION_SET := by
    rw [invalid_set_eq]
    simp [hX1, hX2, hX5]
  have hlen : List.length ["!!", "!!", X] = 3 := rfl
  rw [hq, hq2]
  unfold LogQuerier.evaluate_tokens
  rw [show evalFuel ["!!", "!!", X] = 20 from rfl, show evalFuel [X] = 12 from rfl,
    default_operationo_dict]
  have k1 : eval_next 16 ⟨"&&", "||", "!!", "((", "))"⟩ ["!!", "!!", X] line ci 2 =
      .ok (evalOperand ci X line, 3) :=
    eval_next_operand 15 _ _ line ci 2 X (by rw [hlen]; decide) rfl hX4 hX3 hXinv
  have k2 : eval_next 17 ⟨"&&", "||", "!!", "((", "))"⟩ ["!!", "!!", X] line ci 1 =
      .ok (!(evalOperand ci X line), 3) := by
    rw [eval_next_step,
      if_pos ((by rw [hlen]; decide) : 1 < List.length ["!!", "!!", X]),
      show List.getD ["!!", "!!", X] 1 "" = "!!" from rfl,
      if_neg ((by decide) : ¬(("!!" : String) =
        (⟨"&&", "||", "!!", "((", "))"⟩ : OperationDict).LEFT_PARENTHESIS)),
      if_pos (show ("!!" : String) =
        (⟨"&&", "||", "!!", "((", "))"⟩ : OperationDict).NOT from rfl),
      k1]
  have k3 : eval_next 18 ⟨"&&", "||", "!!", "((", "))"⟩ ["!!", "!!", X] line ci 0 =
      .ok (!!(evalOperand ci X line), 3) := by
    rw [eval_next_step,
      if_pos ((by rw [hlen]; decide) : 0 < List.length ["!!", "!!", X]),
      show List.getD ["!!", "!!", X] 0 "" = "!!" from rfl,
      if_neg ((by decide) : ¬(("!!" : String) =
        (⟨"&&", "||", "!!", "((", "))"⟩ : OperationDict).LEFT_PARENTHESIS)),
      if_pos (show ("!!" : String) =
        (⟨"&&", "||", "!!", "((", "))"⟩ : OperationDict).NOT from rfl),
      k2]
  have k4 : eval_and_loop 18 ⟨"&&", "||", "!!", "((", "))"⟩ ["!!", "!!", X] line ci
      (!!(evalOperand ci X line)) 3 = .ok (!!(evalOperand ci X line), 3) :=
    eval_and_loop_exit 17 _ _ line ci _ 3 (by rw [hlen]; simp)
  have k5 : eval_and 19 ⟨"&&", "||", "!!", "((", "))"⟩ ["!!", "!!", X] line ci 0 =
      .ok (!!(evalOperand ci X line), 3) := by
    rw [eval_and_step, k3]
    exact k4
  have k6 : eval_or_loop 19 ⟨"&&", "||", "!!", "((", "))"⟩ ["!!", "!!", X] line ci
      (!!(evalOperand ci X line)) 3 = .ok (!!(evalOperand ci X line), 3) :=
    eval_or_loop_exit 18 _ _ line ci _ 3 (by rw [hlen]; simp)
  have hor : eval_or 20 ⟨"&&", "||", "!!", "((", "))"⟩ ["!!", "!!", X] line ci 0 =
      .ok (!!(evalOperand ci X line), 3) := by
    rw [eval_or_step, k5]
    exact k6
  have hor2 : eval_or 12 ⟨"&&", "||", "!!", "((", "))"⟩ [X] line ci 0 =
      .ok (evalOperand ci X line, 1) :=
    eval_or_single _ X line ci hX4 hX3 hXinv
  rw [hor, hor2, Bool.not_not]

/-- C7 witness: `!!!!x` versus `x` on a concrete line. -/
theorem claim_C7_witness :
    (defaultQuerier []).evaluate_tokens ((defaultQuerier []).tokenize "!!!!x") "x" 0 false =
      (defaultQuerier []).evaluate_tokens ((defaultQuerier []).tokenize "x") "x" 0 false :=
  claim_C7_double_negation "x" "x" false "!!!!x" "x" rfl rfl (by decide)
